import Mathlib

/-!
# Shallow embedding of the ryan85 configurable VM emulator

This file embeds the Rust sources `src/vm/arch.rs` and `src/vm/emulator.rs`
of the ryan85 repository into Lean 4 and proves properties of the embedded
code. Machine integers (`u8`, `u16`, `usize`) are modelled as `Nat`, with an
explicit `% 256` (resp. no truncation) exactly at the places where the Rust
code truncates (`as u8`, `wrapping_add`) or where unchecked `u8` arithmetic
wraps under release-build semantics. Fallible Rust functions returning
`Result<_, EmulationError>` become `Except EmulationError _`. The mutable
`Vec<u8>` memory buffer is modelled as a length together with a total
function on indices; reads and writes outside the length fail, as
`Vec::get`/`Vec::get_mut` do. Host I/O (the three libc syscalls) is modelled
by an explicit oracle `Host` supplying the values the C library would return.
-/

namespace Ryan85

/-- `InstructionOpcodes` from arch.rs: the configured opcode byte for each of
the eight instruction kinds. -/
structure InstructionOpcodes where
  imm : Nat
  add : Nat
  stk : Nat
  stm : Nat
  ldm : Nat
  cmp : Nat
  jmp : Nat
  sys : Nat
  deriving Repr, DecidableEq

/-- `Syscalls` from arch.rs: the configured syscall numbers. The Rust field
`open` is rendered `opn` (`open` is a Lean keyword). -/
structure Syscalls where
  opn : Nat
  read_memory : Nat
  write : Nat
  deriving Repr, DecidableEq

/-- `CmpFlags` from arch.rs: the configured comparison-flag bitmasks. -/
structure CmpFlags where
  smaller : Nat
  bigger : Nat
  equals : Nat
  not_equals : Nat
  zero : Nat
  deriving Repr, DecidableEq

/-- `Registers` from arch.rs: the configured register identifier bytes. -/
structure Registers where
  a : Nat
  b : Nat
  c : Nat
  d : Nat
  s : Nat
  i : Nat
  f : Nat
  none : Nat
  deriving Repr, DecidableEq

/-- `InstructionDecodeIndices` from arch.rs: byte positions of the opcode and
the two operands inside a 3-byte instruction. -/
structure InstructionDecodeIndices where
  opcode : Nat
  left_param : Nat
  right_param : Nat
  deriving Repr, DecidableEq

/-- `VMConsts` from arch.rs. -/
structure VMConsts where
  opcodes : InstructionOpcodes
  syscalls : Syscalls
  registers : Registers
  instruction_indices : InstructionDecodeIndices
  cmp_flags : CmpFlags
  deriving Repr, DecidableEq

/-- `REG_NONE` from arch.rs. -/
def REG_NONE : Nat := 0

/-- `Registers::reg_to_mem_location` from arch.rs: resolve a register
identifier byte to an absolute address in the unified buffer. The match arms
are tried in source order (a, b, c, d, s, i, f, then the literal
`REG_NONE`). -/
def Registers.reg_to_mem_location (R : Registers) (reg_value : Nat) : Option Nat :=
  if reg_value = R.a then some 0x400
  else if reg_value = R.b then some 0x401
  else if reg_value = R.c then some 0x402
  else if reg_value = R.d then some 0x403
  else if reg_value = R.s then some 0x404
  else if reg_value = R.i then some 0x405
  else if reg_value = R.f then some 0x406
  else if reg_value = REG_NONE then some 0xffff
  else Option.none

/-- `Instruction` from arch.rs: a decoded instruction carrying raw operand
bytes. -/
inductive Instruction where
  | Sys (num : Nat) (dst : Nat)
  | Cmp (left : Nat) (right : Nat)
  | Stk (pop : Nat) (push : Nat)
  | Ldm (dst : Nat) (src : Nat)
  | Stm (dst : Nat) (src : Nat)
  | Imm (dst : Nat) (val : Nat)
  | Jmp (flags : Nat) (dst : Nat)
  | Add (dst : Nat) (src : Nat)
  deriving Repr, DecidableEq

/-- `Instruction::from_bytes` from arch.rs. Fails (returns `none`) when the
slice length is not 3 or the opcode byte matches none of the eight configured
opcodes; the opcode is compared against the configured values in source order
(sys, cmp, stk, ldm, stm, imm, jmp, add). The source indexes the slice with
`instruction_bytes[indices.opcode]`, which panics on an out-of-range index;
this embedding uses `getD _ 0` and is used only under the configuration
invariant that the indices form a permutation of {0,1,2}, where the two
agree. -/
def Instruction.from_bytes (instruction_bytes : List Nat)
    (indices : InstructionDecodeIndices) (opcodes : InstructionOpcodes) :
    Option Instruction :=
  if instruction_bytes.length ≠ 3 then Option.none
  else
    let opcode := instruction_bytes.getD indices.opcode 0
    let left_param := instruction_bytes.getD indices.left_param 0
    let right_param := instruction_bytes.getD indices.right_param 0
    if opcode = opcodes.sys then some (.Sys left_param right_param)
    else if opcode = opcodes.cmp then some (.Cmp left_param right_param)
    else if opcode = opcodes.stk then some (.Stk left_param right_param)
    else if opcode = opcodes.ldm then some (.Ldm left_param right_param)
    else if opcode = opcodes.stm then some (.Stm left_param right_param)
    else if opcode = opcodes.imm then some (.Imm left_param right_param)
    else if opcode = opcodes.jmp then some (.Jmp left_param right_param)
    else if opcode = opcodes.add then some (.Add left_param right_param)
    else Option.none

/-- `EmulationError` from emulator.rs. -/
inductive EmulationError where
  | InvalidRegister (register : Nat)
  | InvalidInstruction (instruction : Nat)
  | InvalidMemoryAddress (address : Nat)
  | InvalidSyscall (syscall : Nat)
  | OtherError
  deriving Repr, DecidableEq

/-- The `Vec<u8>` memory buffer of the emulator: a size together with a total
function giving the byte at each index below the size (values at indices ≥
`size` are irrelevant: every access bounds-checks against `size` first, as
`Vec::get`/`Vec::get_mut` do). -/
structure Mem where
  size : Nat
  data : Nat → Nat

/-- Pure model of the three host syscalls (`libc::write`, `libc::read`,
`libc::open`): an oracle giving the value each call would return. `readRes`
also supplies the bytes the host wrote into the temporary buffer. -/
structure Host where
  writeRes : Nat → List Nat → Nat → Int
  readRes : Nat → Nat → Int × List Nat
  openRes : List Nat → Nat → Nat → Int

/-- `Emulator` from emulator.rs: the unified memory buffer plus the session
configuration. -/
structure Emulator where
  mem : Mem
  consts : VMConsts

/-- `Emulator::read_memory_raw`: bounds-checked read of the unified buffer. -/
def Emulator.read_memory_raw (e : Emulator) (location : Nat) :
    Except EmulationError Nat :=
  if location < e.mem.size then .ok (e.mem.data location)
  else .error (.InvalidMemoryAddress location)

/-- `Emulator::read_memory`: RAM-window read; the source computes
`location as u16 + 0x300` (no overflow: `location` is a `u8`). -/
def Emulator.read_memory (e : Emulator) (location : Nat) :
    Except EmulationError Nat :=
  e.read_memory_raw (location + 0x300)

/-- `Emulator::read_register`: resolve the identifier via the configuration,
then read the buffer at the resolved address. -/
def Emulator.read_register (e : Emulator) (register : Nat) :
    Except EmulationError Nat :=
  match e.consts.registers.reg_to_mem_location register with
  | some loc => e.read_memory_raw loc
  | Option.none => .error (.InvalidRegister register)

/-- `Emulator::write_memory_raw`: bounds-checked write of the unified buffer;
out of bounds, the buffer is untouched and the error is returned. -/
def Emulator.write_memory_raw (e : Emulator) (location val : Nat) :
    Except EmulationError Emulator :=
  if location < e.mem.size then
    .ok { e with mem := { e.mem with data := Function.update e.mem.data location val } }
  else .error (.InvalidMemoryAddress location)

/-- `Emulator::write_memory`: RAM-window write at `location + 0x300`. -/
def Emulator.write_memory (e : Emulator) (location val : Nat) :
    Except EmulationError Emulator :=
  e.write_memory_raw (location + 0x300) val

/-- `Emulator::write_register`. -/
def Emulator.write_register (e : Emulator) (register val : Nat) :
    Except EmulationError Emulator :=
  match e.consts.registers.reg_to_mem_location register with
  | some loc => e.write_memory_raw loc val
  | Option.none => .error (.InvalidRegister register)

/-- `Emulator::dump_registers`: reads the seven registers (in order a, b, c,
d, s, i, f) for a diagnostic print; any failing read propagates. -/
def Emulator.dump_registers (e : Emulator) : Except EmulationError Unit := do
  let _ ← e.read_register e.consts.registers.a
  let _ ← e.read_register e.consts.registers.b
  let _ ← e.read_register e.consts.registers.c
  let _ ← e.read_register e.consts.registers.d
  let _ ← e.read_register e.consts.registers.s
  let _ ← e.read_register e.consts.registers.i
  let _ ← e.read_register e.consts.registers.f
  return ()

/-- `Emulator::read_string`: scan the RAM window from `offset` until a zero
byte, returning the accumulated bytes; fails with `OtherError` when the 8-bit
offset counter would overflow (`checked_add` returning `None` at 255) before
a terminator. -/
def Emulator.read_string (e : Emulator) (offset : Nat) :
    Except EmulationError (List Nat) := do
  let c ← e.read_memory offset
  if c = 0 then return []
  else if h : offset + 1 ≤ 255 then do
    let rest ← e.read_string (offset + 1)
    return c :: rest
  else .error .OtherError
  termination_by 255 - offset

/-- 8-bit wrapping addition: `u8::wrapping_add`, and the unchecked `u8 + 1`
of the Stk push arm under release-build semantics. -/
def wrapAdd8 (a b : Nat) : Nat := (a + b) % 256

/-- 8-bit wrapping subtraction: the unchecked `u8 - 1` of the Stk pop arm
under release-build semantics (for `a < 256`, `wrapSub8 a 1 = (a + 255) % 256`). -/
def wrapSub8 (a b : Nat) : Nat := (a + (256 - b % 256)) % 256

/-- The flag byte computed by the Cmp arm of
`Emulator::interpret_instruction`: starting from 0, OR in each configured
mask whose condition holds, in source order (zero, smaller, equals, bigger,
not_equals). -/
def cmpNewFlags (fl : CmpFlags) (left_value right_value : Nat) : Nat :=
  let f0 : Nat := 0
  let f1 := if left_value = 0 ∧ right_value = 0 then f0 ||| fl.zero else f0
  let f2 := if left_value < right_value then f1 ||| fl.smaller else f1
  let f3 := if left_value = right_value then f2 ||| fl.equals else f2
  let f4 := if left_value > right_value then f3 ||| fl.bigger else f3
  if left_value ≠ right_value then f4 ||| fl.not_equals else f4

/-- `Emulator::interpret_instruction` from emulator.rs. It first calls
`dump_registers` (whose failure propagates), then dispatches on the
instruction. Diagnostic prints are omitted. The Sys arm's host calls are
answered by the `Host` oracle; the slice `&self.mem[0x300+origin..][..n]` in
the sys-write arm is read through `Mem.data` without a bounds check (the
source panics if the slice exceeds the buffer, which cannot happen for
buffers of size ≥ 0x400 thanks to the clamp `n ≤ 0x100 - origin`). -/
def Emulator.interpret_instruction (h : Host) (e : Emulator)
    (instruction : Instruction) : Except EmulationError Emulator := do
  let _ ← e.dump_registers
  match instruction with
  | .Imm dst val => e.write_register dst val
  | .Add dst src => do
      let d ← e.read_register dst
      let s ← e.read_register src
      e.write_register dst (wrapAdd8 d s)
  | .Stk pop push => do
      let e1 ←
        if push ≠ 0 then do
          let s0 ← e.read_register e.consts.registers.s
          let e' ← e.write_register e.consts.registers.s (wrapAdd8 s0 1)
          let val ← e'.read_register push
          let s1 ← e'.read_register e'.consts.registers.s
          e'.write_memory s1 val
        else pure e
      if pop ≠ 0 then do
        let s2 ← e1.read_register e1.consts.registers.s
        let val ← e1.read_memory s2
        let e2 ← e1.write_register pop val
        let s3 ← e2.read_register e2.consts.registers.s
        e2.write_register e2.consts.registers.s (wrapSub8 s3 1)
      else pure e1
  | .Stm dst src => do
      let offset ← e.read_register dst
      let v ← e.read_register src
      e.write_memory offset v
  | .Ldm dst src => do
      let p ← e.read_register src
      let val ← e.read_memory p
      e.write_register dst val
  | .Cmp left right => do
      let left_value ← e.read_register left
      let right_value ← e.read_register right
      e.write_register e.consts.registers.f
        (cmpNewFlags e.consts.cmp_flags left_value right_value)
  | .Jmp flags dst =>
      -- `flags == 0 || self.read_register(f)? & flags != 0` short-circuits:
      -- the flags register is only read when `flags ≠ 0`.
      if flags = 0 then do
        let dv ← e.read_register dst
        e.write_register e.consts.registers.i dv
      else do
        let fv ← e.read_register e.consts.registers.f
        if fv &&& flags ≠ 0 then do
          let dv ← e.read_register dst
          e.write_register e.consts.registers.i dv
        else pure e
  | .Sys num dst =>
      if num = e.consts.syscalls.write then do
        let fd ← e.read_register e.consts.registers.a
        let origin_offset ← e.read_register e.consts.registers.b
        let c ← e.read_register e.consts.registers.c
        let max_bytes := 0x100 - origin_offset
        let n_bytes := min c max_bytes
        let buffer := (List.range n_bytes).map (fun k => e.mem.data (0x300 + origin_offset + k))
        let num_written := h.writeRes fd buffer n_bytes
        if num_written ≥ 0 then
          -- `num_written as u8` narrows to 8 bits
          e.write_register dst (Int.toNat num_written % 256)
        else pure e
      else if num = e.consts.syscalls.read_memory then do
        let fd ← e.read_register e.consts.registers.a
        let dest_offset ← e.read_register e.consts.registers.b
        let c ← e.read_register e.consts.registers.c
        let max_bytes := 0x100 - dest_offset
        let n_bytes := min c max_bytes
        let res := h.readRes fd n_bytes
        if res.1 ≥ 0 then
          -- copy each received byte through write_memory; `dest_offset + i as u8`
          let num_read := Int.toNat res.1
          (List.range num_read).foldlM
            (fun acc k => acc.write_memory ((dest_offset + k % 256) % 256) (res.2.getD k 0)) e
        else pure e
      else if num = e.consts.syscalls.opn then do
        let a0 ← e.read_register e.consts.registers.a
        let path ← e.read_string a0
        let flags ← e.read_register e.consts.registers.b
        let mode ← e.read_register e.consts.registers.c
        let fdInt := h.openRes path flags mode
        -- `try_into::<u8>()` hard-fails when the descriptor does not fit in 8 bits
        if 0 ≤ fdInt ∧ fdInt < 256 then e.write_register dst (Int.toNat fdInt)
        else .error .OtherError
      else .error (.InvalidSyscall num)

/-- `Emulator::execute_next_instruction` from emulator.rs (the step
function). Reads the instruction pointer, writes back `ip + 1` truncated to
8 bits, fetches 3 bytes at `ip * 3`, decodes, and dispatches. The source's
`ip.checked_add(1)` is performed on a `usize` that was widened from a `u8`
(`ip ≤ 255`), so it can never return `None`; the subsequent
`incremented_ip as u8` truncates modulo 256. -/
def Emulator.execute_next_instruction (h : Host) (e : Emulator) :
    Except EmulationError Emulator := do
  let ip ← e.read_register e.consts.registers.i
  let incremented_ip := ip + 1
  let e1 ← e.write_register e.consts.registers.i (incremented_ip % 256)
  if ip * 3 + 3 ≤ e1.mem.size then
    let instruction_bytes :=
      [e1.mem.data (ip * 3), e1.mem.data (ip * 3 + 1), e1.mem.data (ip * 3 + 2)]
    match Instruction.from_bytes instruction_bytes e1.consts.instruction_indices
        e1.consts.opcodes with
    | some instruction => e1.interpret_instruction h instruction
    | Option.none => .error (.InvalidInstruction (instruction_bytes.getD 0 0))
  else .error (.InvalidMemoryAddress (ip * 3))

/-- Iterate the step function `n` times. -/
def Emulator.stepN (h : Host) (e : Emulator) : Nat → Except EmulationError Emulator
  | 0 => .ok e
  | n + 1 => do
      let e1 ← e.execute_next_instruction h
      e1.stepN h n

/-- The seven real registers (excluding the `none` sentinel). -/
inductive RegName where
  | a | b | c | d | s | i | f
  deriving Repr, DecidableEq, Fintype

/-- The configured identifier byte of a register. -/
def Registers.idOf (R : Registers) : RegName → Nat
  | .a => R.a
  | .b => R.b
  | .c => R.c
  | .d => R.d
  | .s => R.s
  | .i => R.i
  | .f => R.f

/-- The register-bank slot of a register (fixed by
`Registers::reg_to_mem_location`). -/
def RegName.slot : RegName → Nat
  | .a => 0x400
  | .b => 0x401
  | .c => 0x402
  | .d => 0x403
  | .s => 0x404
  | .i => 0x405
  | .f => 0x406

/-- The configuration invariant on register identifiers stated in the spec:
the seven non-`none` identifiers are pairwise distinct and nonzero. -/
def RegistersWF (R : Registers) : Prop :=
  (∀ n : RegName, R.idOf n ≠ 0) ∧
  (∀ n m : RegName, n ≠ m → R.idOf n ≠ R.idOf m)

instance (R : Registers) : Decidable (RegistersWF R) := by
  unfold RegistersWF; infer_instance

/-- The configuration invariant on opcodes: the eight opcode bytes are
pairwise distinct. -/
def OpcodesWF (O : InstructionOpcodes) : Prop :=
  [O.imm, O.add, O.stk, O.stm, O.ldm, O.cmp, O.jmp, O.sys].Nodup

instance (O : InstructionOpcodes) : Decidable (OpcodesWF O) := by
  unfold OpcodesWF; infer_instance

/-- Under the register invariant, each real register's identifier resolves to
its own bank slot. -/
theorem reg_to_mem_location_idOf (R : Registers) (hWF : RegistersWF R)
    (n : RegName) : R.reg_to_mem_location (R.idOf n) = some n.slot := by
  obtain ⟨_, hd⟩ := hWF
  have hba : R.b ≠ R.a := hd .b .a (by decide)
  have hca : R.c ≠ R.a := hd .c .a (by decide)
  have hcb : R.c ≠ R.b := hd .c .b (by decide)
  have hda : R.d ≠ R.a := hd .d .a (by decide)
  have hdb : R.d ≠ R.b := hd .d .b (by decide)
  have hdc : R.d ≠ R.c := hd .d .c (by decide)
  have hsa : R.s ≠ R.a := hd .s .a (by decide)
  have hsb : R.s ≠ R.b := hd .s .b (by decide)
  have hsc : R.s ≠ R.c := hd .s .c (by decide)
  have hsd : R.s ≠ R.d := hd .s .d (by decide)
  have hia : R.i ≠ R.a := hd .i .a (by decide)
  have hib : R.i ≠ R.b := hd .i .b (by decide)
  have hic : R.i ≠ R.c := hd .i .c (by decide)
  have hid : R.i ≠ R.d := hd .i .d (by decide)
  have his : R.i ≠ R.s := hd .i .s (by decide)
  have hfa : R.f ≠ R.a := hd .f .a (by decide)
  have hfb : R.f ≠ R.b := hd .f .b (by decide)
  have hfc : R.f ≠ R.c := hd .f .c (by decide)
  have hfd : R.f ≠ R.d := hd .f .d (by decide)
  have hfs : R.f ≠ R.s := hd .f .s (by decide)
  have hfi : R.f ≠ R.i := hd .f .i (by decide)
  cases n <;>
    simp [Registers.reg_to_mem_location, Registers.idOf, RegName.slot, *]

/-- Each register slot lies below 0x407. -/
theorem slot_lt (n : RegName) : n.slot < 0x407 := by
  cases n <;> simp [RegName.slot]

/-- Each register slot lies at or above the register-bank base 0x400. -/
theorem slot_ge (n : RegName) : 0x400 ≤ n.slot := by
  cases n <;> simp [RegName.slot]

/-- Reading a real register on a buffer covering the register bank returns
the byte stored at its slot. -/
theorem read_register_idOf (e : Emulator)
    (hWF : RegistersWF e.consts.registers) (hsz : 0x407 ≤ e.mem.size)
    (n : RegName) :
    e.read_register (e.consts.registers.idOf n) = .ok (e.mem.data n.slot) := by
  rw [Emulator.read_register, reg_to_mem_location_idOf _ hWF]
  simp [Emulator.read_memory_raw, Nat.lt_of_lt_of_le (slot_lt n) hsz]

/-- Writing a real register updates exactly its slot. -/
theorem write_register_idOf (e : Emulator)
    (hWF : RegistersWF e.consts.registers) (hsz : 0x407 ≤ e.mem.size)
    (n : RegName) (v : Nat) :
    e.write_register (e.consts.registers.idOf n) v =
      .ok { e with mem := { e.mem with data := Function.update e.mem.data n.slot v } } := by
  rw [Emulator.write_register, reg_to_mem_location_idOf _ hWF]
  simp [Emulator.write_memory_raw, Nat.lt_of_lt_of_le (slot_lt n) hsz]

/-- On a buffer covering the register bank, the diagnostic register dump
succeeds. -/
theorem dump_registers_ok (e : Emulator)
    (hWF : RegistersWF e.consts.registers) (hsz : 0x407 ≤ e.mem.size) :
    e.dump_registers = .ok () := by
  rw [Emulator.dump_registers]
  rw [show e.consts.registers.a = e.consts.registers.idOf .a from rfl,
      show e.consts.registers.b = e.consts.registers.idOf .b from rfl,
      show e.consts.registers.c = e.consts.registers.idOf .c from rfl,
      show e.consts.registers.d = e.consts.registers.idOf .d from rfl,
      show e.consts.registers.s = e.consts.registers.idOf .s from rfl,
      show e.consts.registers.i = e.consts.registers.idOf .i from rfl,
      show e.consts.registers.f = e.consts.registers.idOf .f from rfl]
  simp [read_register_idOf e hWF hsz, bind, Except.bind, pure, Except.pure]

/-- Reading the stack-pointer register through its configured field. -/
theorem read_register_s (e : Emulator) (hWF : RegistersWF e.consts.registers)
    (hsz : 0x407 ≤ e.mem.size) :
    e.read_register e.consts.registers.s = .ok (e.mem.data 0x404) :=
  read_register_idOf e hWF hsz .s

/-- Reading the instruction-pointer register through its configured field. -/
theorem read_register_i (e : Emulator) (hWF : RegistersWF e.consts.registers)
    (hsz : 0x407 ≤ e.mem.size) :
    e.read_register e.consts.registers.i = .ok (e.mem.data 0x405) :=
  read_register_idOf e hWF hsz .i

/-- Reading the flags register through its configured field. -/
theorem read_register_f (e : Emulator) (hWF : RegistersWF e.consts.registers)
    (hsz : 0x407 ≤ e.mem.size) :
    e.read_register e.consts.registers.f = .ok (e.mem.data 0x406) :=
  read_register_idOf e hWF hsz .f

/-- Writing the stack-pointer register through its configured field. -/
theorem write_register_s (e : Emulator) (hWF : RegistersWF e.consts.registers)
    (hsz : 0x407 ≤ e.mem.size) (v : Nat) :
    e.write_register e.consts.registers.s v =
      .ok { e with mem := { e.mem with data := (Function.update e.mem.data 0x404 v) } } :=
  write_register_idOf e hWF hsz .s v

/-- Writing the instruction-pointer register through its configured field. -/
theorem write_register_i (e : Emulator) (hWF : RegistersWF e.consts.registers)
    (hsz : 0x407 ≤ e.mem.size) (v : Nat) :
    e.write_register e.consts.registers.i v =
      .ok { e with mem := { e.mem with data := (Function.update e.mem.data 0x405 v) } } :=
  write_register_idOf e hWF hsz .i v

/-- Writing the flags register through its configured field. -/
theorem write_register_f (e : Emulator) (hWF : RegistersWF e.consts.registers)
    (hsz : 0x407 ≤ e.mem.size) (v : Nat) :
    e.write_register e.consts.registers.f v =
      .ok { e with mem := { e.mem with data := (Function.update e.mem.data 0x406 v) } } :=
  write_register_idOf e hWF hsz .f v

/-- Observable: the byte at a given buffer index of a step result, or `none`
when the step failed. -/
def resultData (r : Except EmulationError Emulator) (loc : Nat) : Option Nat :=
  match r with
  | .ok e => some (e.mem.data loc)
  | .error _ => Option.none

/-! ## Concrete fixtures for witnesses

A concrete session configuration (opcode bytes and register identifiers from
the reverse-engineered constants recorded in arch.rs), an all-zero memory of
the standard layout size 0x407 (3-byte code region + RAM window at
0x300–0x3FF + register bank at 0x400–0x406), and a host oracle whose calls
all fail. -/

def testConsts : VMConsts where
  opcodes := { imm := 0x10, add := 0x1, stk := 0x4, stm := 0x2,
               ldm := 0x20, cmp := 0x40, jmp := 0x80, sys := 0x8 }
  syscalls := { opn := 0x1, read_memory := 0x2, write := 0x3 }
  registers := { a := 0x20, b := 0x4, c := 0x10, d := 0x40,
                 s := 0x1, i := 0x2, f := 0x8, none := 0 }
  instruction_indices := { opcode := 0, left_param := 1, right_param := 2 }
  cmp_flags := { smaller := 0x1, bigger := 0x2, equals := 0x4,
                 not_equals := 0x8, zero := 0x10 }

def zmem : Mem := ⟨0x407, fun _ => 0⟩

def failHost : Host where
  writeRes := fun _ _ _ => -1
  readRes := fun _ _ => (-1, [])
  openRes := fun _ _ _ => -1

theorem testConsts_registers_wf : RegistersWF testConsts.registers := by decide

/-! ## C9: bounds safety -/

/-- C9: every register or memory access that resolves to an address outside
the bounds of the unified buffer fails with the address-out-of-range error
(`InvalidMemoryAddress`); a failing write returns only the error and no
updated state, so the buffer is unchanged. -/
theorem c9_bounds_safety :
    ∀ (e : Emulator) (loc v r : Nat),
      e.mem.size ≤ loc →
      (e.read_memory_raw loc = .error (.InvalidMemoryAddress loc) ∧
       e.write_memory_raw loc v = .error (.InvalidMemoryAddress loc)) ∧
      (e.consts.registers.reg_to_mem_location r = some loc →
        e.read_register r = .error (.InvalidMemoryAddress loc) ∧
        e.write_register r v = .error (.InvalidMemoryAddress loc)) := by
  intro e loc v r hle
  have hnot : ¬ loc < e.mem.size := Nat.not_lt.mpr hle
  refine ⟨⟨?_, ?_⟩, ?_⟩
  · simp [Emulator.read_memory_raw, hnot]
  · simp [Emulator.write_memory_raw, hnot]
  · intro hres
    constructor
    · rw [Emulator.read_register, hres]
      simp [Emulator.read_memory_raw, hnot]
    · rw [Emulator.write_register, hres]
      simp [Emulator.write_memory_raw, hnot]

/-- Witness for C9 at a concrete input: buffer of size 0x407, address
0xffff (the sentinel the `none` identifier 0 resolves to). -/
theorem c9_bounds_safety_witness :
    (0x407:Nat) ≤ 0xffff ∧
    Emulator.read_memory_raw ⟨zmem, testConsts⟩ 0xffff =
      .error (.InvalidMemoryAddress 0xffff) ∧
    Emulator.write_register ⟨zmem, testConsts⟩ 0 5 =
      .error (.InvalidMemoryAddress 0xffff) := by
  have h := c9_bounds_safety ⟨zmem, testConsts⟩ 0xffff 5 0 (by decide)
  exact ⟨by decide, h.1.1, (h.2 (by decide)).2⟩

/-! ## C10: the RAM-window accessors stay inside 0x300–0x3FF -/

/-- C10: for every 8-bit offset, `read_memory` reads the raw buffer at
`offset + 0x300`, an address in [0x300, 0x3FF]; and a `write_memory` at an
8-bit offset leaves every byte of the code region (below 0x300) and of the
register bank (0x400 and above) unchanged. -/
theorem c10_ram_window_accessors :
    ∀ (e : Emulator) (off v j : Nat),
      off < 256 → 0x407 ≤ e.mem.size →
      (e.read_memory off = e.read_memory_raw (off + 0x300)) ∧
      0x300 ≤ off + 0x300 ∧ off + 0x300 ≤ 0x3FF ∧
      (j < 0x300 ∨ 0x400 ≤ j →
        resultData (e.write_memory off v) j = some (e.mem.data j)) := by
  intro e off v j hoff hsz
  refine ⟨rfl, by omega, by omega, ?_⟩
  intro hj
  have hin : off + 0x300 < e.mem.size := by omega
  have hne : j ≠ off + 0x300 := by omega
  simp [Emulator.write_memory, Emulator.write_memory_raw, hin, resultData,
    Function.update, hne]

/-- Witness for C10 at a concrete input: offset 5, value 7, observing the
register-bank byte 0x400. -/
theorem c10_ram_window_accessors_witness :
    ((5:Nat) < 256 ∧ (0x407:Nat) ≤ 0x407) ∧
    (Emulator.read_memory ⟨zmem, testConsts⟩ 5 =
      Emulator.read_memory_raw ⟨zmem, testConsts⟩ (5 + 0x300)) ∧
    resultData (Emulator.write_memory ⟨zmem, testConsts⟩ 5 7) 0x400 = some 0 := by
  have h := c10_ram_window_accessors ⟨zmem, testConsts⟩ 5 7 0x400 (by decide) (by decide)
  exact ⟨⟨by decide, by decide⟩, h.1, h.2.2.2 (by decide)⟩

/-! ## C3: Cmp totality -/

/-- Spec-side definition (for comparison with the code's `cmpNewFlags`): the
bitwise-OR of exactly the configured masks whose condition holds. -/
def cmpSpecFlags (fl : CmpFlags) (l r : Nat) : Nat :=
  (if l = 0 ∧ r = 0 then fl.zero else 0) |||
  (if l < r then fl.smaller else 0) |||
  (if l = r then fl.equals else 0) |||
  (if l > r then fl.bigger else 0) |||
  (if l ≠ r then fl.not_equals else 0)

/-- The code's flag byte is the OR of exactly the masks whose condition
holds. -/
theorem cmpNewFlags_eq_spec (fl : CmpFlags) (l r : Nat) :
    cmpNewFlags fl l r = cmpSpecFlags fl l r := by
  rcases Nat.lt_trichotomy l r with hlt | heq | hgt
  · have h0 : ¬ (l = 0 ∧ r = 0) := by omega
    have hne : l ≠ r := Nat.ne_of_lt hlt
    simp [cmpNewFlags, cmpSpecFlags, hlt, hne, h0, Nat.lt_asymm hlt]
  · subst heq
    by_cases h0 : l = 0 <;>
      simp [cmpNewFlags, cmpSpecFlags, h0, Nat.lt_irrefl]
  · have h0 : ¬ (l = 0 ∧ r = 0) := by omega
    have hne : l ≠ r := (Nat.ne_of_lt hgt).symm
    simp [cmpNewFlags, cmpSpecFlags, hgt, hne, h0, Nat.lt_asymm hgt,
      Nat.not_lt.mpr (Nat.le_of_lt hgt)]

/-- C3: executing Cmp on registers L and R overwrites the flags register
(slot 0x406) with `cmpNewFlags` of the two operand values; that byte is the
bitwise-OR of exactly the configured masks whose condition holds; exactly one
of smaller (l < r), bigger (l > r), equal (l = r) holds; not-equal holds iff
equal does not; and the zero condition is l = 0 ∧ r = 0. -/
theorem c3_cmp_totality :
    ∀ (h : Host) (e : Emulator) (L R : RegName),
      RegistersWF e.consts.registers → 0x407 ≤ e.mem.size →
      (e.interpret_instruction h
          (.Cmp (e.consts.registers.idOf L) (e.consts.registers.idOf R)) =
        .ok { e with mem := { e.mem with data := (Function.update e.mem.data
          0x406 (cmpNewFlags e.consts.cmp_flags (e.mem.data L.slot)
            (e.mem.data R.slot))) } }) ∧
      (cmpNewFlags e.consts.cmp_flags (e.mem.data L.slot) (e.mem.data R.slot) =
        cmpSpecFlags e.consts.cmp_flags (e.mem.data L.slot) (e.mem.data R.slot)) ∧
      ((e.mem.data L.slot < e.mem.data R.slot ∨
        e.mem.data L.slot = e.mem.data R.slot ∨
        e.mem.data L.slot > e.mem.data R.slot) ∧
       ¬ (e.mem.data L.slot < e.mem.data R.slot ∧
          e.mem.data L.slot = e.mem.data R.slot) ∧
       ¬ (e.mem.data L.slot < e.mem.data R.slot ∧
          e.mem.data L.slot > e.mem.data R.slot) ∧
       ¬ (e.mem.data L.slot = e.mem.data R.slot ∧
          e.mem.data L.slot > e.mem.data R.slot)) ∧
      ((e.mem.data L.slot ≠ e.mem.data R.slot) ↔
        ¬ e.mem.data L.slot = e.mem.data R.slot) := by
  intro h e L R hWF hsz
  refine ⟨?_, cmpNewFlags_eq_spec _ _ _, by omega, Iff.rfl⟩
  simp only [Emulator.interpret_instruction, dump_registers_ok e hWF hsz,
    read_register_idOf e hWF hsz, write_register_f e hWF hsz,
    bind, Except.bind, RegName.slot]

/-- Memory fixture for the C3 witness: register a holds 5, register b
holds 9. -/
def c3mem : Mem := ⟨0x407, fun j => if j = 0x400 then 5 else if j = 0x401 then 9 else 0⟩

/-- Witness for C3 at a concrete input: comparing a = 5 with b = 9 stores
smaller ||| not-equal = 0x1 ||| 0x8 = 9 in the flags register. -/
theorem c3_cmp_totality_witness :
    RegistersWF testConsts.registers ∧ (0x407:Nat) ≤ 0x407 ∧
    (Emulator.interpret_instruction failHost ⟨c3mem, testConsts⟩
        (.Cmp (testConsts.registers.idOf .a) (testConsts.registers.idOf .b)) =
      .ok ⟨⟨0x407, Function.update c3mem.data 0x406
        (cmpNewFlags testConsts.cmp_flags (c3mem.data RegName.a.slot)
          (c3mem.data RegName.b.slot))⟩, testConsts⟩) ∧
    cmpNewFlags testConsts.cmp_flags (c3mem.data RegName.a.slot)
      (c3mem.data RegName.b.slot) = 9 := by
  have h := c3_cmp_totality failHost ⟨c3mem, testConsts⟩ .a .b (by decide) (by decide)
  exact ⟨by decide, by decide, h.1, by decide⟩

/-- RAM-window read at an 8-bit offset on a standard-size buffer succeeds. -/
theorem read_memory_lt (e : Emulator) (hsz : 0x407 ≤ e.mem.size) (off : Nat)
    (hoff : off < 256) : e.read_memory off = .ok (e.mem.data (off + 0x300)) := by
  have : off + 0x300 < e.mem.size := by omega
  simp [Emulator.read_memory, Emulator.read_memory_raw, this]

/-- RAM-window write at an 8-bit offset on a standard-size buffer succeeds. -/
theorem write_memory_lt (e : Emulator) (hsz : 0x407 ≤ e.mem.size) (off v : Nat)
    (hoff : off < 256) :
    e.write_memory off v =
      .ok { e with mem := { e.mem with data := (Function.update e.mem.data (off + 0x300) v) } } := by
  have : off + 0x300 < e.mem.size := by omega
  simp [Emulator.write_memory, Emulator.write_memory_raw, this]

/-! ## C7: Jmp correctness -/

/-- C7: a Jmp with flags operand F is taken iff F = 0 or the current flags
byte ANDed with F is nonzero; taken, it sets the instruction-pointer slot
(0x405) to the value held in the dst register; not taken, the state is
returned unchanged. -/
theorem c7_jmp_correctness :
    ∀ (h : Host) (e : Emulator) (F : Nat) (dn : RegName),
      RegistersWF e.consts.registers → 0x407 ≤ e.mem.size →
      (F = 0 ∨ e.mem.data 0x406 &&& F ≠ 0 →
        e.interpret_instruction h (.Jmp F (e.consts.registers.idOf dn)) =
          .ok { e with mem := { e.mem with
            data := (Function.update e.mem.data 0x405 (e.mem.data dn.slot)) } }) ∧
      (F ≠ 0 → e.mem.data 0x406 &&& F = 0 →
        e.interpret_instruction h (.Jmp F (e.consts.registers.idOf dn)) = .ok e) := by
  intro h e F dn hWF hsz
  constructor
  · intro htaken
    rcases htaken with hF | hand
    · subst hF
      simp only [Emulator.interpret_instruction, dump_registers_ok e hWF hsz,
        read_register_idOf e hWF hsz, write_register_i e hWF hsz,
        bind, Except.bind, if_pos rfl, if_true]
    · have hF : F = 0 ∨ F ≠ 0 := em _
      rcases hF with hF | hF
      · subst hF
        simp only [Emulator.interpret_instruction, dump_registers_ok e hWF hsz,
          read_register_idOf e hWF hsz, write_register_i e hWF hsz,
          bind, Except.bind, if_pos rfl, if_true]
      · simp only [Emulator.interpret_instruction, dump_registers_ok e hWF hsz,
          read_register_idOf e hWF hsz, read_register_f e hWF hsz,
          write_register_i e hWF hsz, bind, Except.bind, if_neg hF, if_pos hand]
  · intro hF hand
    simp only [Emulator.interpret_instruction, dump_registers_ok e hWF hsz,
      read_register_f e hWF hsz, bind, Except.bind, if_neg hF]
    simp [hand, pure, Except.pure]

/-- Witness for C7 at concrete inputs: on the all-zero memory, `Jmp 0` (dst
register a) is taken and writes 0 to the instruction-pointer slot, while
`Jmp 4` is not taken (0 &&& 4 = 0) and leaves the state unchanged. -/
theorem c7_jmp_correctness_witness :
    RegistersWF testConsts.registers ∧
    (Emulator.interpret_instruction failHost ⟨zmem, testConsts⟩
        (.Jmp 0 (testConsts.registers.idOf .a)) =
      .ok ⟨⟨0x407, Function.update zmem.data 0x405 (zmem.data RegName.a.slot)⟩,
        testConsts⟩) ∧
    (Emulator.interpret_instruction failHost ⟨zmem, testConsts⟩
        (.Jmp 4 (testConsts.registers.idOf .a)) = .ok ⟨zmem, testConsts⟩) := by
  have h := c7_jmp_correctness failHost ⟨zmem, testConsts⟩ 0 .a (by decide) (by decide)
  have h4 := c7_jmp_correctness failHost ⟨zmem, testConsts⟩ 4 .a (by decide) (by decide)
  exact ⟨by decide, h.1 (Or.inl rfl), h4.2 (by decide) (by decide)⟩

/-- Bind on a success value reduces to the continuation. -/
theorem ok_bind {α β : Type} (a : α) (f : α → Except EmulationError β) :
    (Except.ok a >>= f) = f a := rfl

/-- `read_register_idOf` stated on a state whose data function was replaced,
so that it applies syntactically after earlier writes. -/
theorem read_register_idOf_upd (e : Emulator)
    (hWF : RegistersWF e.consts.registers) (hsz : 0x407 ≤ e.mem.size)
    (d : Nat → Nat) (n : RegName) :
    ({ e with mem := { e.mem with data := d } } : Emulator).read_register
      (e.consts.registers.idOf n) = .ok (d n.slot) :=
  read_register_idOf { e with mem := { e.mem with data := d } } hWF hsz n

/-- `read_register_s` on a state whose data function was replaced. -/
theorem read_register_s_upd (e : Emulator)
    (hWF : RegistersWF e.consts.registers) (hsz : 0x407 ≤ e.mem.size)
    (d : Nat → Nat) :
    ({ e with mem := { e.mem with data := d } } : Emulator).read_register
      ({ e with mem := { e.mem with data := d } } : Emulator).consts.registers.s =
      .ok (d 0x404) :=
  read_register_s { e with mem := { e.mem with data := d } } hWF hsz

/-- `write_register_idOf` on a state whose data function was replaced. -/
theorem write_register_idOf_upd (e : Emulator)
    (hWF : RegistersWF e.consts.registers) (hsz : 0x407 ≤ e.mem.size)
    (d : Nat → Nat) (n : RegName) (v : Nat) :
    ({ e with mem := { e.mem with data := d } } : Emulator).write_register
      (e.consts.registers.idOf n) v =
      .ok { e with mem := { e.mem with data := (Function.update d n.slot v) } } :=
  write_register_idOf { e with mem := { e.mem with data := d } } hWF hsz n v

/-- `write_register_s` on a state whose data function was replaced. -/
theorem write_register_s_upd (e : Emulator)
    (hWF : RegistersWF e.consts.registers) (hsz : 0x407 ≤ e.mem.size)
    (d : Nat → Nat) (v : Nat) :
    ({ e with mem := { e.mem with data := d } } : Emulator).write_register
      ({ e with mem := { e.mem with data := d } } : Emulator).consts.registers.s v =
      .ok { e with mem := { e.mem with data := (Function.update d 0x404 v) } } :=
  write_register_s { e with mem := { e.mem with data := d } } hWF hsz v

/-- `read_memory_lt` on a state whose data function was replaced. -/
theorem read_memory_lt_upd (e : Emulator) (hsz : 0x407 ≤ e.mem.size)
    (d : Nat → Nat) (off : Nat) (hoff : off < 256) :
    ({ e with mem := { e.mem with data := d } } : Emulator).read_memory off =
      .ok (d (off + 0x300)) :=
  read_memory_lt { e with mem := { e.mem with data := d } } hsz off hoff

/-- `write_memory_lt` on a state whose data function was replaced. -/
theorem write_memory_lt_upd (e : Emulator) (hsz : 0x407 ≤ e.mem.size)
    (d : Nat → Nat) (off v : Nat) (hoff : off < 256) :
    ({ e with mem := { e.mem with data := d } } : Emulator).write_memory off v =
      .ok { e with mem := { e.mem with data := (Function.update d (off + 0x300) v) } } :=
  write_memory_lt { e with mem := { e.mem with data := d } } hsz off v hoff

/-- `dump_registers` succeeds on a state whose data function was replaced. -/
theorem dump_registers_ok_upd (e : Emulator)
    (hWF : RegistersWF e.consts.registers) (hsz : 0x407 ≤ e.mem.size)
    (d : Nat → Nat) :
    ({ e with mem := { e.mem with data := d } } : Emulator).dump_registers = .ok () :=
  dump_registers_ok { e with mem := { e.mem with data := d } } hWF hsz

/-- `read_register_i` on a state whose data function was replaced. -/
theorem read_register_i_upd (e : Emulator)
    (hWF : RegistersWF e.consts.registers) (hsz : 0x407 ≤ e.mem.size)
    (d : Nat → Nat) :
    ({ e with mem := { e.mem with data := d } } : Emulator).read_register
      ({ e with mem := { e.mem with data := d } } : Emulator).consts.registers.i =
      .ok (d 0x405) :=
  read_register_i { e with mem := { e.mem with data := d } } hWF hsz

/-- `write_register_i` on a state whose data function was replaced. -/
theorem write_register_i_upd (e : Emulator)
    (hWF : RegistersWF e.consts.registers) (hsz : 0x407 ≤ e.mem.size)
    (d : Nat → Nat) (v : Nat) :
    ({ e with mem := { e.mem with data := d } } : Emulator).write_register
      ({ e with mem := { e.mem with data := d } } : Emulator).consts.registers.i v =
      .ok { e with mem := { e.mem with data := (Function.update d 0x405 v) } } :=
  write_register_i { e with mem := { e.mem with data := d } } hWF hsz v

/-- Reading register a (by its configured identifier byte) on a state whose
data function was replaced. -/
theorem read_register_a_upd (e : Emulator)
    (hWF : RegistersWF e.consts.registers) (hsz : 0x407 ≤ e.mem.size)
    (d : Nat → Nat) :
    ({ e with mem := { e.mem with data := d } } : Emulator).read_register
      e.consts.registers.a = .ok (d 0x400) :=
  read_register_idOf_upd e hWF hsz d .a

/-- Reading register b on a state whose data function was replaced. -/
theorem read_register_b_upd (e : Emulator)
    (hWF : RegistersWF e.consts.registers) (hsz : 0x407 ≤ e.mem.size)
    (d : Nat → Nat) :
    ({ e with mem := { e.mem with data := d } } : Emulator).read_register
      e.consts.registers.b = .ok (d 0x401) :=
  read_register_idOf_upd e hWF hsz d .b

/-- Writing register a on a state whose data function was replaced. -/
theorem write_register_a_upd (e : Emulator)
    (hWF : RegistersWF e.consts.registers) (hsz : 0x407 ≤ e.mem.size)
    (d : Nat → Nat) (v : Nat) :
    ({ e with mem := { e.mem with data := d } } : Emulator).write_register
      e.consts.registers.a v =
      .ok { e with mem := { e.mem with data := (Function.update d 0x400 v) } } :=
  write_register_idOf_upd e hWF hsz d .a v

/-- Writing register b on a state whose data function was replaced. -/
theorem write_register_b_upd (e : Emulator)
    (hWF : RegistersWF e.consts.registers) (hsz : 0x407 ≤ e.mem.size)
    (d : Nat → Nat) (v : Nat) :
    ({ e with mem := { e.mem with data := d } } : Emulator).write_register
      e.consts.registers.b v =
      .ok { e with mem := { e.mem with data := (Function.update d 0x401 v) } } :=
  write_register_idOf_upd e hWF hsz d .b v

/-! ## C6: stack-pointer arithmetic wraps modulo 256 -/

/-- Slots of distinct register names are distinct; in particular a register
other than s never occupies slot 0x404. -/
theorem slot_ne_s (Q : RegName) (hQ : Q ≠ .s) : (0x404:Nat) ≠ Q.slot := by
  cases Q <;> simp_all [RegName.slot]

/-- C6: a push-only Stk stores `(s + 1) % 256` in the stack-pointer slot and
a pop-only Stk (into a register other than s) stores `wrapSub8 s 1 =
(s + 255) % 256` there; both succeed with no guard (under release-build
wrapping semantics for the unchecked `u8` increment/decrement). -/
theorem c6_stack_pointer_wrap :
    ∀ (h : Host) (e : Emulator) (P Q : RegName),
      RegistersWF e.consts.registers → 0x407 ≤ e.mem.size →
      e.mem.data 0x404 < 256 → Q ≠ .s →
      resultData (e.interpret_instruction h
          (.Stk 0 (e.consts.registers.idOf P))) 0x404 =
        some ((e.mem.data 0x404 + 1) % 256) ∧
      resultData (e.interpret_instruction h
          (.Stk (e.consts.registers.idOf Q) 0)) 0x404 =
        some (wrapSub8 (e.mem.data 0x404) 1) := by
  intro h e P Q hWF hsz hs hQ
  have hP0 : e.consts.registers.idOf P ≠ 0 := hWF.1 P
  have hQ0 : e.consts.registers.idOf Q ≠ 0 := hWF.1 Q
  have hw : (e.mem.data 0x404 + 1) % 256 < 256 := Nat.mod_lt _ (by omega)
  have hne : (0x404:Nat) ≠ (e.mem.data 0x404 + 1) % 256 + 0x300 := by omega
  have hQslot := slot_ne_s Q hQ
  constructor
  · -- push-only
    simp only [Emulator.interpret_instruction, dump_registers_ok e hWF hsz,
      ok_bind, pure_bind, pure, Except.pure, if_pos hP0, wrapAdd8,
      if_neg (by simp : ¬ (0:Nat) ≠ 0),
      read_register_s e hWF hsz, write_register_s e hWF hsz,
      read_register_idOf_upd e hWF hsz, read_register_s_upd e hWF hsz,
      Function.update_same, hw, write_memory_lt_upd e hsz, resultData,
      Function.update_noteq hne]
  · -- pop-only
    simp only [Emulator.interpret_instruction, dump_registers_ok e hWF hsz,
      ok_bind, pure_bind, pure, Except.pure, if_pos hQ0,
      if_neg (by simp : ¬ (0:Nat) ≠ 0),
      read_register_s e hWF hsz, read_memory_lt e hsz _ hs,
      write_register_idOf e hWF hsz, read_register_s_upd e hWF hsz,
      Function.update_noteq hQslot, write_register_s_upd e hWF hsz,
      resultData, Function.update_same]

/-- Memory fixture for the C6 witness: the stack-pointer slot holds 255. -/
def c6mem : Mem := ⟨0x407, fun j => if j = 0x404 then 255 else 0⟩

/-- Witness for C6 at concrete inputs: a push with the stack pointer at 255
wraps it to 0, and a pop with the stack pointer at 0 wraps it to 255, both
without error. -/
theorem c6_stack_pointer_wrap_witness :
    (RegistersWF testConsts.registers ∧ c6mem.data 0x404 = 255 ∧
      zmem.data 0x404 = 0) ∧
    resultData (Emulator.interpret_instruction failHost ⟨c6mem, testConsts⟩
      (.Stk 0 (testConsts.registers.idOf .a))) 0x404 = some 0 ∧
    resultData (Emulator.interpret_instruction failHost ⟨zmem, testConsts⟩
      (.Stk (testConsts.registers.idOf .a) 0)) 0x404 = some 255 := by
  have hp := (c6_stack_pointer_wrap failHost ⟨c6mem, testConsts⟩ .a .a
    (by decide) (by decide) (by decide) (by decide)).1
  have hq := (c6_stack_pointer_wrap failHost ⟨zmem, testConsts⟩ .a .a
    (by decide) (by decide) (by decide) (by decide)).2
  refine ⟨⟨by decide, by decide, by decide⟩, ?_, ?_⟩
  · rw [hp]; decide
  · rw [hq]; decide

/-! ## C4: Stk push-then-pop round trip -/

/-- C4 (amended): for registers X and Y other than the stack-pointer
register, a Stk instruction that pushes X and pops into Y (push executes
first) leaves Y holding X's pre-push value and the stack pointer numerically
unchanged. -/
theorem c4_stk_round_trip :
    ∀ (h : Host) (e : Emulator) (X Y : RegName),
      RegistersWF e.consts.registers → 0x407 ≤ e.mem.size →
      e.mem.data 0x404 < 256 → X ≠ .s → Y ≠ .s →
      resultData (e.interpret_instruction h
          (.Stk (e.consts.registers.idOf Y) (e.consts.registers.idOf X))) Y.slot =
        some (e.mem.data X.slot) ∧
      resultData (e.interpret_instruction h
          (.Stk (e.consts.registers.idOf Y) (e.consts.registers.idOf X))) 0x404 =
        some (e.mem.data 0x404) := by
  intro h e X Y hWF hsz hs hX hY
  have hX0 : e.consts.registers.idOf X ≠ 0 := hWF.1 X
  have hY0 : e.consts.registers.idOf Y ≠ 0 := hWF.1 Y
  have hw : (e.mem.data 0x404 + 1) % 256 < 256 := Nat.mod_lt _ (by omega)
  have hne : (0x404:Nat) ≠ (e.mem.data 0x404 + 1) % 256 + 0x300 := by omega
  have hXslot : X.slot ≠ (0x404:Nat) := (slot_ne_s X hX).symm
  have hYslot : (0x404:Nat) ≠ Y.slot := slot_ne_s Y hY
  have hYslot' : Y.slot ≠ (0x404:Nat) := hYslot.symm
  have hYw : Y.slot ≠ (e.mem.data 0x404 + 1) % 256 + 0x300 := by
    have h1 := slot_ge Y
    have h2 : (e.mem.data 0x404 + 1) % 256 < 256 := Nat.mod_lt _ (by omega)
    omega
  constructor <;>
    simp only [Emulator.interpret_instruction, dump_registers_ok e hWF hsz,
      ok_bind, pure_bind, pure, Except.pure, if_pos hX0, if_pos hY0, wrapAdd8,
      read_register_s e hWF hsz, write_register_s e hWF hsz,
      read_register_idOf_upd e hWF hsz, read_register_s_upd e hWF hsz,
      Function.update_same, Function.update_noteq hne,
      Function.update_noteq hXslot, hw, write_memory_lt_upd e hsz,
      read_memory_lt_upd e hsz, write_register_idOf_upd e hWF hsz,
      Function.update_noteq hYslot, Function.update_noteq hYslot',
      Function.update_noteq hYw,
      write_register_s_upd e hWF hsz, resultData, Option.some.injEq]
  · unfold wrapSub8; omega

/-- Memory fixture for the C4 counterexample and witness: the stack-pointer
slot holds 7, register b holds 42. -/
def c4mem : Mem :=
  ⟨0x407, fun j => if j = 0x404 then 7 else if j = 0x401 then 42 else 0⟩

/-- Counterexample to C4 as stated: with X = s (the stack-pointer register,
holding 7) and Y = a, pushing X then popping into Y leaves Y holding 8 — the
post-increment stack pointer — not X's pre-push value 7, because the Stk push
arm reads the pushed register after incrementing the stack pointer. -/
theorem c4_stk_round_trip_counterexample :
    c4mem.data 0x404 = 7 ∧
    resultData (Emulator.interpret_instruction failHost ⟨c4mem, testConsts⟩
        (.Stk (testConsts.registers.idOf .a) (testConsts.registers.idOf .s)))
      RegName.a.slot = some 8 ∧
    (8:Nat) ≠ 7 := by
  refine ⟨by decide, by decide, by decide⟩

/-- Witness for the amended C4 at a concrete input: pushing b (holding 42)
and popping into d leaves d holding 42 and the stack pointer back at 7. -/
theorem c4_stk_round_trip_witness :
    (RegistersWF testConsts.registers ∧ c4mem.data 0x404 = 7 ∧
      c4mem.data RegName.b.slot = 42) ∧
    resultData (Emulator.interpret_instruction failHost ⟨c4mem, testConsts⟩
        (.Stk (testConsts.registers.idOf .d) (testConsts.registers.idOf .b)))
      RegName.d.slot = some (c4mem.data RegName.b.slot) ∧
    resultData (Emulator.interpret_instruction failHost ⟨c4mem, testConsts⟩
        (.Stk (testConsts.registers.idOf .d) (testConsts.registers.idOf .b)))
      0x404 = some (c4mem.data 0x404) := by
  have h := c4_stk_round_trip failHost ⟨c4mem, testConsts⟩ .b .d
    (by decide) (by decide) (by decide) (by decide) (by decide)
  exact ⟨⟨by decide, by decide, by decide⟩, h.1, h.2⟩

/-! ## C5: the `none` register identifier -/

/-- A 0x10000-byte buffer (the full 16-bit address space), all zero. -/
def bigmem : Mem := ⟨0x10000, fun _ => 0⟩

/-- Counterexample to C5 as stated: the `none` identifier (0) is not guarded
by the Imm arm — it resolves to the sentinel address 0xffff, and on a buffer
of size 0x10000 that is a real in-bounds slot, which `Imm none 42` then
writes. -/
theorem c5_none_counterexample :
    testConsts.registers.reg_to_mem_location 0 = some 0xffff ∧
    resultData (Emulator.interpret_instruction failHost ⟨bigmem, testConsts⟩
      (.Imm 0 42)) 0xffff = some 42 := by
  refine ⟨by decide, by decide⟩

/-- C5 (amended): the `none` identifier (0) resolves to the fixed sentinel
address 0xffff, never to a register-bank slot; on any buffer of size at most
0xffff (the standard 0x407 layout included) every read or write through it
fails with address-out-of-range and the buffer is never touched; of the
instruction arms only Stk guards on `none` before dispatch (a Stk whose pop
and push fields are both `none` is a no-op). -/
theorem c5_none_sentinel :
    ∀ (h : Host) (e : Emulator) (v : Nat),
      RegistersWF e.consts.registers → 0x407 ≤ e.mem.size →
      e.mem.size ≤ 0xffff →
      e.consts.registers.reg_to_mem_location 0 = some 0xffff ∧
      e.read_register 0 = .error (.InvalidMemoryAddress 0xffff) ∧
      e.write_register 0 v = .error (.InvalidMemoryAddress 0xffff) ∧
      e.interpret_instruction h (.Stk 0 0) = .ok e := by
  intro h e v hWF hsz hbound
  have ha : (0:Nat) ≠ e.consts.registers.a := Ne.symm (hWF.1 .a)
  have hb : (0:Nat) ≠ e.consts.registers.b := Ne.symm (hWF.1 .b)
  have hc : (0:Nat) ≠ e.consts.registers.c := Ne.symm (hWF.1 .c)
  have hd : (0:Nat) ≠ e.consts.registers.d := Ne.symm (hWF.1 .d)
  have hs : (0:Nat) ≠ e.consts.registers.s := Ne.symm (hWF.1 .s)
  have hi : (0:Nat) ≠ e.consts.registers.i := Ne.symm (hWF.1 .i)
  have hf : (0:Nat) ≠ e.consts.registers.f := Ne.symm (hWF.1 .f)
  have hres : e.consts.registers.reg_to_mem_location 0 = some 0xffff := by
    simp [Registers.reg_to_mem_location, REG_NONE, ha, hb, hc, hd, hs, hi, hf]
  have hoob : ¬ (0xffff:Nat) < e.mem.size := by omega
  refine ⟨hres, ?_, ?_, ?_⟩
  · rw [Emulator.read_register, hres]
    simp [Emulator.read_memory_raw, hoob]
  · rw [Emulator.write_register, hres]
    simp [Emulator.write_memory_raw, hoob]
  · simp only [Emulator.interpret_instruction, dump_registers_ok e hWF hsz,
      ok_bind, pure_bind, pure, Except.pure,
      if_neg (by simp : ¬ (0:Nat) ≠ 0)]

/-- Witness for the amended C5 at a concrete input: the standard 0x407-byte
layout. -/
theorem c5_none_sentinel_witness :
    (RegistersWF testConsts.registers ∧ (0x407:Nat) ≤ 0x407 ∧
      (0x407:Nat) ≤ 0xffff) ∧
    testConsts.registers.reg_to_mem_location 0 = some 0xffff ∧
    Emulator.read_register ⟨zmem, testConsts⟩ 0 =
      .error (.InvalidMemoryAddress 0xffff) ∧
    Emulator.write_register ⟨zmem, testConsts⟩ 0 9 =
      .error (.InvalidMemoryAddress 0xffff) ∧
    Emulator.interpret_instruction failHost ⟨zmem, testConsts⟩ (.Stk 0 0) =
      .ok ⟨zmem, testConsts⟩ := by
  have h := c5_none_sentinel failHost ⟨zmem, testConsts⟩ 9
    (by decide) (by decide) (by decide)
  exact ⟨⟨by decide, by decide, by decide⟩, h.1, h.2.1, h.2.2.1, h.2.2.2⟩

/-! ## C8: decode is pure and permutation-equivariant -/

/-- Apply a byte-position permutation to a 3-byte instruction: position `j`
of the result holds the byte at position `σ j` of the input. -/
def permuteBytes (σ : Nat → Nat) (bytes : List Nat) : List Nat :=
  [bytes.getD (σ 0) 0, bytes.getD (σ 1) 0, bytes.getD (σ 2) 0]

/-- Apply the inverse byte-position permutation to the field-order indices. -/
def permuteIndices (τ : Nat → Nat) (ind : InstructionDecodeIndices) :
    InstructionDecodeIndices :=
  ⟨τ ind.opcode, τ ind.left_param, τ ind.right_param⟩

theorem permuteBytes_getD (σ : Nat → Nat) (bytes : List Nat) (j : Nat)
    (hj : j < 3) : (permuteBytes σ bytes).getD j 0 = bytes.getD (σ j) 0 := by
  interval_cases j <;> simp [permuteBytes]

/-- C8: `from_bytes` is a pure function of the byte triple, the field-order
indices and the opcode table (it is a plain function of exactly those three
arguments in this embedding), and permuting the bytes by σ while mapping the
indices through the inverse permutation τ decodes to the identical
instruction. -/
theorem c8_decode_equivariance :
    ∀ (σ τ : Nat → Nat) (bytes : List Nat) (ind : InstructionDecodeIndices)
      (opc : InstructionOpcodes),
      bytes.length = 3 →
      ind.opcode < 3 → ind.left_param < 3 → ind.right_param < 3 →
      (∀ k, k < 3 → τ k < 3) → (∀ k, k < 3 → σ (τ k) = k) →
      Instruction.from_bytes (permuteBytes σ bytes) (permuteIndices τ ind) opc =
        Instruction.from_bytes bytes ind opc := by
  intro σ τ bytes ind opc hlen h1 h2 h3 hτ hστ
  have ho : (permuteBytes σ bytes).getD (τ ind.opcode) 0 =
      bytes.getD ind.opcode 0 := by
    rw [permuteBytes_getD σ bytes _ (hτ _ h1), hστ _ h1]
  have hl : (permuteBytes σ bytes).getD (τ ind.left_param) 0 =
      bytes.getD ind.left_param 0 := by
    rw [permuteBytes_getD σ bytes _ (hτ _ h2), hστ _ h2]
  have hr : (permuteBytes σ bytes).getD (τ ind.right_param) 0 =
      bytes.getD ind.right_param 0 := by
    rw [permuteBytes_getD σ bytes _ (hτ _ h3), hστ _ h3]
  have hplen : (permuteBytes σ bytes).length = 3 := rfl
  simp only [Instruction.from_bytes, permuteIndices, hplen, hlen, ho, hl, hr]

/-- Witness for C8 at a concrete input: the byte triple [0x10, 0x20, 5]
(`IMM a 5` under the fixture opcodes, fields in order opcode/left/right)
rotated by σ = (+1 mod 3) with inverse τ = (+2 mod 3) decodes to the same
instruction. -/
theorem c8_decode_equivariance_witness :
    ([0x10, 0x20, 5] : List Nat).length = 3 ∧
    Instruction.from_bytes
        (permuteBytes (fun k => (k + 1) % 3) [0x10, 0x20, 5])
        (permuteIndices (fun k => (k + 2) % 3) ⟨0, 1, 2⟩) testConsts.opcodes =
      Instruction.from_bytes [0x10, 0x20, 5] ⟨0, 1, 2⟩ testConsts.opcodes ∧
    Instruction.from_bytes [0x10, 0x20, 5] ⟨0, 1, 2⟩ testConsts.opcodes =
      some (.Imm 0x20 5) := by
  refine ⟨by decide, ?_, by decide⟩
  exact c8_decode_equivariance (fun k => (k + 1) % 3) (fun k => (k + 2) % 3)
    [0x10, 0x20, 5] ⟨0, 1, 2⟩ testConsts.opcodes rfl (by decide) (by decide)
    (by decide) (by decide) (by decide)

/-! ## C2: the instruction-pointer overflow check is dead code -/

/-- Memory fixture for C2: the instruction-pointer register holds 255 and a
valid `IMM a 0` instruction sits at instruction index 255 (bytes 765–767). -/
def c2mem : Mem :=
  ⟨0x407, fun j =>
    if j = 0x405 then 255 else if j = 765 then 0x10
    else if j = 766 then 0x20 else 0⟩

/-- C2 (documenting the code bug): with the instruction pointer at 255, the
step function does not fail — `checked_add` is performed on the `usize`
widened from the `u8`, so it cannot overflow, and the `as u8` write-back
silently wraps the instruction pointer to 0 while the step completes
normally. -/
theorem c2_ip_overflow_is_dead_code :
    c2mem.data 0x405 = 255 ∧
    resultData (Emulator.execute_next_instruction failHost
      ⟨c2mem, testConsts⟩) 0x405 = some 0 := by
  refine ⟨by decide, by decide⟩

/-! ## C1: end-to-end IMM/IMM/ADD run -/

/-- The pairwise-distinctness facts about opcodes needed to decode the
end-to-end image. -/
theorem opcode_pairs (O : InstructionOpcodes) (h : OpcodesWF O) :
    O.imm ≠ O.sys ∧ O.imm ≠ O.cmp ∧ O.imm ≠ O.stk ∧ O.imm ≠ O.ldm ∧
    O.imm ≠ O.stm ∧ O.add ≠ O.sys ∧ O.add ≠ O.cmp ∧ O.add ≠ O.stk ∧
    O.add ≠ O.ldm ∧ O.add ≠ O.stm ∧ O.add ≠ O.imm ∧ O.add ≠ O.jmp := by
  simp only [OpcodesWF, List.nodup_cons, List.mem_cons, List.mem_singleton,
    List.not_mem_nil, or_false, not_or, List.nodup_nil, and_true] at h
  obtain ⟨⟨h1, h2, h3, h4, h5, h6, h7⟩, ⟨g1, g2, g3, g4, g5, g6⟩, _⟩ := h
  exact ⟨h7, h5, h2, h4, h3, g6, g4, g1, g3, g2, Ne.symm h1, g5⟩

/-- The 9-byte end-to-end image `IMM a 5; IMM b 3; ADD a b` (field order
opcode, left, right; the session's configured opcode bytes), zero-padded to
the standard 0x407 layout, so every register — the instruction pointer
included — starts at 0. -/
def c1image (C : VMConsts) : Mem :=
  ⟨0x407, fun j =>
    if j = 0 then C.opcodes.imm else if j = 1 then C.registers.a
    else if j = 2 then 5
    else if j = 3 then C.opcodes.imm else if j = 4 then C.registers.b
    else if j = 5 then 3
    else if j = 6 then C.opcodes.add else if j = 7 then C.registers.a
    else if j = 8 then C.registers.b
    else 0⟩

set_option maxHeartbeats 1600000 in
/-- C1: for any session configuration with pairwise-distinct opcode bytes,
well-formed register identifiers and field order (opcode, left, right),
running exactly 3 steps on the `IMM a 5; IMM b 3; ADD a b` image starting
with the instruction pointer at 0 succeeds, leaving register a (slot 0x400)
holding 8 and the instruction pointer (slot 0x405) holding 3. -/
theorem c1_end_to_end :
    ∀ (h : Host) (C : VMConsts),
      RegistersWF C.registers → OpcodesWF C.opcodes →
      C.instruction_indices = ⟨0, 1, 2⟩ →
      resultData (Emulator.stepN h ⟨c1image C, C⟩ 3) 0x400 = some 8 ∧
      resultData (Emulator.stepN h ⟨c1image C, C⟩ 3) 0x405 = some 3 := by
  intro h C hWF hOp hind
  obtain ⟨p1, p2, p3, p4, p5, q1, q2, q3, q4, q5, q6, q7⟩ :=
    opcode_pairs C.opcodes hOp
  have hstep : Emulator.stepN h ⟨c1image C, C⟩ 3 =
      ((⟨c1image C, C⟩ : Emulator).execute_next_instruction h >>= fun e1 =>
        e1.execute_next_instruction h >>= fun e2 =>
        e2.execute_next_instruction h >>= fun e3 => .ok e3) := rfl
  generalize hE : (⟨c1image C, C⟩ : Emulator) = e0 at hstep
  have hc : e0.consts = C := by rw [← hE]
  have hs407 : e0.mem.size = 0x407 := by rw [← hE]; rfl
  have hWF0 : RegistersWF e0.consts.registers := by rw [hc]; exact hWF
  have hsz0 : (0x407:Nat) ≤ e0.mem.size := by rw [hs407]
  have hd0 : e0.mem.data 0 = C.opcodes.imm := by rw [← hE]; rfl
  have hd1 : e0.mem.data 1 = C.registers.a := by rw [← hE]; rfl
  have hd2 : e0.mem.data 2 = 5 := by rw [← hE]; rfl
  have hd3 : e0.mem.data 3 = C.opcodes.imm := by rw [← hE]; rfl
  have hd4 : e0.mem.data 4 = C.registers.b := by rw [← hE]; rfl
  have hd5 : e0.mem.data 5 = 3 := by rw [← hE]; rfl
  have hd6 : e0.mem.data 6 = C.opcodes.add := by rw [← hE]; rfl
  have hd7 : e0.mem.data 7 = C.registers.a := by rw [← hE]; rfl
  have hd8 : e0.mem.data 8 = C.registers.b := by rw [← hE]; rfl
  have hip : e0.mem.data 0x405 = 0 := by rw [← hE]; rfl
  rw [← hc] at hind p1 p2 p3 p4 p5 q1 q2 q3 q4 q5 q6 q7 hd0 hd1 hd3 hd4 hd6 hd7 hd8
  have hf1 : (3:Nat) ≤ e0.mem.size := by omega
  have hf2 : (6:Nat) ≤ e0.mem.size := by omega
  have hf3 : (9:Nat) ≤ e0.mem.size := by omega
  rw [hstep]
  constructor <;>
    simp [Emulator.execute_next_instruction, Emulator.interpret_instruction,
      Instruction.from_bytes, ok_bind, pure_bind, pure, Except.pure,
      hind, hf1, hf2, hf3,
      read_register_i e0 hWF0 hsz0, write_register_i e0 hWF0 hsz0,
      dump_registers_ok_upd e0 hWF0 hsz0,
      read_register_i_upd e0 hWF0 hsz0, write_register_i_upd e0 hWF0 hsz0,
      read_register_a_upd e0 hWF0 hsz0, read_register_b_upd e0 hWF0 hsz0,
      write_register_a_upd e0 hWF0 hsz0, write_register_b_upd e0 hWF0 hsz0,
      hd0, hd1, hd2, hd3, hd4, hd5, hd6, hd7, hd8, hip,
      p1, p2, p3, p4, p5, q1, q2, q3, q4, q5, q6, q7,
      wrapAdd8, Function.update_apply, resultData]

/-- Witness for C1 at a concrete input: the fixture configuration. -/
theorem c1_end_to_end_witness :
    (RegistersWF testConsts.registers ∧ OpcodesWF testConsts.opcodes ∧
      testConsts.instruction_indices = ⟨0, 1, 2⟩) ∧
    resultData (Emulator.stepN failHost ⟨c1image testConsts, testConsts⟩ 3)
      0x400 = some 8 ∧
    resultData (Emulator.stepN failHost ⟨c1image testConsts, testConsts⟩ 3)
      0x405 = some 3 := by
  have h := c1_end_to_end failHost testConsts (by decide) (by decide) rfl
  exact ⟨⟨by decide, by decide, rfl⟩, h.1, h.2⟩

end Ryan85
